import Mathlib

/-!
Shallow embedding of the iron-chip CHIP-8 emulator core (src/emulator.rs).

Machine integers are modelled as `Nat` with explicit truncation (`% 256`
for `u8`, `% 65536` for `u16`) wherever the Rust code wraps.  Fixed-size
Rust arrays become `List Nat`; every indexed access that could panic in
Rust (out-of-bounds indexing) is modelled by `Option`: a `none` result of
an operation corresponds to a Rust panic.  The `error!` logging call in
the unimplemented-opcode arm is modelled by appending the raw opcode to
an `error_log` field (the "observability channel" of the spec).
-/

namespace IronChip

def WIDTH : Nat := 64

def HEIGHT : Nat := 32

def RAM_SIZE : Nat := 4096

def PROGRAM_START_ADDRESS : Nat := 0x200

def PROGRAM_MAX_SIZE : Nat := RAM_SIZE - PROGRAM_START_ADDRESS

/-- The fixed 80-byte font table placed at 0x50 at construction. -/
def FONTS : List Nat :=
  [0xF0, 0x90, 0x90, 0x90, 0xF0,
   0x20, 0x60, 0x20, 0x20, 0x70,
   0xF0, 0x10, 0xF0, 0x80, 0xF0,
   0xF0, 0x10, 0xF0, 0x10, 0xF0,
   0x90, 0x90, 0xF0, 0x10, 0x10,
   0xF0, 0x80, 0xF0, 0x10, 0xF0,
   0xF0, 0x80, 0xF0, 0x90, 0xF0,
   0xF0, 0x10, 0x20, 0x40, 0x40,
   0xF0, 0x90, 0xF0, 0x90, 0xF0,
   0xF0, 0x90, 0xF0, 0x10, 0xF0,
   0xF0, 0x90, 0xF0, 0x90, 0x90,
   0xE0, 0x90, 0xE0, 0x90, 0xE0,
   0xF0, 0x80, 0x80, 0x80, 0xF0,
   0xE0, 0x90, 0x90, 0x90, 0xE0,
   0xF0, 0x80, 0xF0, 0x80, 0xF0,
   0xF0, 0x80, 0xF0, 0x80, 0x80]

/-- The CPU aggregate (struct `Chip8Emulator`).  `error_log` additionally
records the raw opcodes reported by the unimplemented-opcode arm. -/
structure Chip8Emulator where
  registers : List Nat
  ram : List Nat
  index_register : Nat
  program_counter : Nat
  stack : List Nat
  stack_pointer : Nat
  delay_timer : Nat
  sound_timer : Nat
  display_buffer : List Nat
  instructions_per_frame : Nat
  error_log : List Nat
deriving DecidableEq

/-- The decoded field view of one 16-bit opcode (struct `DecodedInstruction`). -/
structure DecodedInstruction where
  first_nibble : Nat
  x_register : Nat
  y_register : Nat
  n_4_bit_constant : Nat
  nn_8_bit_constant : Nat
  nnn_12_bit_address : Nat
  raw_instruction : Nat
deriving DecidableEq

/-- `Chip8Emulator::decode`: pure split of a 16-bit opcode into fields.
The `% 256` on the first nibble mirrors the `as u8` truncation. -/
def decode (instruction : Nat) : DecodedInstruction :=
  { first_nibble := (instruction >>> 12) % 256,
    x_register := (instruction >>> 8) % 16,
    y_register := (instruction >>> 4) % 16,
    n_4_bit_constant := instruction % 16,
    nn_8_bit_constant := instruction % 256,
    nnn_12_bit_address := instruction % 4096,
    raw_instruction := instruction }

/-- Bounds-checked list update: a Rust `arr[i] = v` (panics when out of range). -/
def listSet (l : List Nat) (i v : Nat) : Option (List Nat) :=
  if i < l.length then some (l.set i v) else none

/-- The construction loops that copy a byte slice into RAM at a start offset. -/
def storeBytes : List Nat → Nat → List Nat → List Nat
  | ram, _, [] => ram
  | ram, start, b :: bs => storeBytes (ram.set start b) (start + 1) bs

/-- `Chip8Emulator::new`: the `assert!` on the ROM size is modelled by
returning `none` (construction fails, no instance produced). -/
def Chip8Emulator.new (rom : List Nat) (instructions_per_frame : Nat) :
    Option Chip8Emulator :=
  if rom.length ≤ PROGRAM_MAX_SIZE then
    some { registers := List.replicate 16 0,
           ram := storeBytes
             (storeBytes (List.replicate RAM_SIZE 0) 0x50 FONTS)
             PROGRAM_START_ADDRESS rom,
           index_register := 0,
           program_counter := PROGRAM_START_ADDRESS,
           stack := List.replicate 16 0,
           stack_pointer := 0,
           delay_timer := 0,
           sound_timer := 0,
           display_buffer := List.replicate (WIDTH * HEIGHT) 0,
           instructions_per_frame := instructions_per_frame,
           error_log := [] }
  else none

/-- `Chip8Emulator::fetch`: big-endian read of the two bytes at the program
counter; an out-of-range read is a panic (`none`). -/
def Chip8Emulator.fetch (s : Chip8Emulator) : Option Nat := do
  let hi ← s.ram[s.program_counter]?
  let lo ← s.ram[s.program_counter + 1]?
  some (hi * 256 + lo)

/-- The inner column loop of the DXYN arm: for each column index `c` in `cs`,
read the destination cell (unconditionally, as the code does), and when the
sprite bit is set either clear an already-lit cell (recording a collision)
or light it. -/
def drawCells (rowByte yRow x : Nat) :
    List Nat → List Nat × Bool → Option (List Nat × Bool)
  | [], acc => some acc
  | c :: cs, (disp, col) => do
      let dest := yRow * WIDTH + (c + x)
      let cur ← disp[dest]?
      if (rowByte &&& (128 >>> c)) != 0 then
        if cur != 0 then drawCells rowByte yRow x cs (disp.set dest 0, true)
        else drawCells rowByte yRow x cs (disp.set dest 0xFFFFFFFF, col)
      else drawCells rowByte yRow x cs (disp, col)

/-- The outer row loop of the DXYN arm: read the sprite byte for each row
index `r` in `rs` from RAM, then run the column loop. -/
def drawRows (ram : List Nat) (idx x y : Nat) :
    List Nat → List Nat × Bool → Option (List Nat × Bool)
  | [], acc => some acc
  | r :: rs, acc => do
      let rowByte ← ram[idx + r]?
      let acc' ← drawCells rowByte (r + y) x (List.range 8) acc
      drawRows ram idx x y rs acc'

/-- The FX65 loop: for each register index `i` in `is`, load `ram[base+i]`
into register `i`. -/
def fillRegs (ram : List Nat) (base : Nat) :
    List Nat → List Nat → Option (List Nat)
  | [], regs => some regs
  | i :: is, regs => do
      let v ← ram[base + i]?
      let regs' ← listSet regs i v
      fillRegs ram base is regs'

/-- `Chip8Emulator::run_instruction`: fetch, advance the counter by 2, decode,
and dispatch.  The if-chain mirrors the order of the Rust match arms; the
final branch is the unimplemented-opcode fallthrough, which logs the raw
opcode and leaves everything but the (already advanced) counter alone. -/
def Chip8Emulator.run_instruction (s : Chip8Emulator) : Option Chip8Emulator := do
  let instruction ← s.fetch
  let pc2 := (s.program_counter + 2) % 65536
  let d := decode instruction
  let x := d.x_register
  let y := d.y_register
  if d.raw_instruction = 0x00E0 then
    some { s with program_counter := pc2,
                  display_buffer := List.replicate s.display_buffer.length 0 }
  else if d.first_nibble = 0x1 then
    some { s with program_counter := d.nnn_12_bit_address }
  else if d.first_nibble = 0x2 then do
    let stack' ← listSet s.stack s.stack_pointer pc2
    some { s with stack := stack',
                  stack_pointer := (s.stack_pointer + 1) % 256,
                  program_counter := d.nnn_12_bit_address }
  else if d.first_nibble = 0x3 then do
    let vx ← s.registers[x]?
    if vx = d.nn_8_bit_constant then
      some { s with program_counter := (pc2 + 2) % 65536 }
    else
      some { s with program_counter := pc2 }
  else if d.first_nibble = 0x4 then do
    let vx ← s.registers[x]?
    if vx ≠ d.nn_8_bit_constant then
      some { s with program_counter := (pc2 + 2) % 65536 }
    else
      some { s with program_counter := pc2 }
  else if d.first_nibble = 0x5 ∧ d.n_4_bit_constant = 0x0 then do
    let vx ← s.registers[x]?
    let vy ← s.registers[y]?
    if vx = vy then
      some { s with program_counter := (pc2 + 2) % 65536 }
    else
      some { s with program_counter := pc2 }
  else if d.first_nibble = 0x6 then do
    let regs' ← listSet s.registers x d.nn_8_bit_constant
    some { s with program_counter := pc2, registers := regs' }
  else if d.first_nibble = 0x7 then do
    let vx ← s.registers[x]?
    let regs' ← listSet s.registers x ((vx + d.nn_8_bit_constant) % 256)
    some { s with program_counter := pc2, registers := regs' }
  else if d.first_nibble = 0x8 ∧ d.n_4_bit_constant = 0x0 then do
    let vy ← s.registers[y]?
    let regs' ← listSet s.registers x vy
    some { s with program_counter := pc2, registers := regs' }
  else if d.first_nibble = 0x8 ∧ d.n_4_bit_constant = 0x2 then do
    let vx ← s.registers[x]?
    let vy ← s.registers[y]?
    let regs' ← listSet s.registers x (vx &&& vy)
    some { s with program_counter := pc2, registers := regs' }
  else if d.first_nibble = 0x8 ∧ d.n_4_bit_constant = 0x4 then do
    let vx ← s.registers[x]?
    let vy ← s.registers[y]?
    let regs' ← listSet s.registers x ((vx + vy) % 256)
    let regs'' ← listSet regs' 0xF (if 255 < vx + vy then 1 else 0)
    some { s with program_counter := pc2, registers := regs'' }
  else if d.first_nibble = 0x9 ∧ d.n_4_bit_constant = 0x0 then do
    let vx ← s.registers[x]?
    let vy ← s.registers[y]?
    if vx ≠ vy then
      some { s with program_counter := (pc2 + 2) % 65536 }
    else
      some { s with program_counter := pc2 }
  else if d.first_nibble = 0xA then
    some { s with program_counter := pc2,
                  index_register := d.nnn_12_bit_address }
  else if d.first_nibble = 0xD then do
    let vx ← s.registers[x]?
    let vy ← s.registers[y]?
    let acc ← drawRows s.ram s.index_register vx vy
      (List.range d.n_4_bit_constant) (s.display_buffer, false)
    let regs' ← if acc.2 then listSet s.registers 0xF 1 else some s.registers
    some { s with program_counter := pc2,
                  display_buffer := acc.1,
                  registers := regs' }
  else if d.first_nibble = 0xF ∧ d.nn_8_bit_constant = 0x1E then do
    let vx ← s.registers[x]?
    some { s with program_counter := pc2,
                  index_register := (s.index_register + vx) % 65536 }
  else if d.first_nibble = 0xF ∧ d.nn_8_bit_constant = 0x65 then do
    let regs' ← fillRegs s.ram s.index_register (List.range (x + 1)) s.registers
    some { s with program_counter := pc2, registers := regs' }
  else
    some { s with program_counter := pc2,
                  error_log := s.error_log ++ [d.raw_instruction] }

/-- The timer step at the head of `run_60hz_frame`: decrement each timer by
one when positive, leave it alone otherwise. -/
def tickTimers (s : Chip8Emulator) : Chip8Emulator :=
  { s with
    delay_timer := if 0 < s.delay_timer then s.delay_timer - 1 else s.delay_timer,
    sound_timer := if 0 < s.sound_timer then s.sound_timer - 1 else s.sound_timer }

/-- `n` consecutive dispatch cycles; a panic in any cycle aborts the run. -/
def runCycles : Nat → Chip8Emulator → Option Chip8Emulator
  | 0, s => some s
  | n + 1, s => do
      let s' ← s.run_instruction
      runCycles n s'

/-- `Chip8Emulator::run_60hz_frame`: tick both timers, then run exactly the
configured number of dispatch cycles. -/
def Chip8Emulator.run_60hz_frame (s : Chip8Emulator) : Option Chip8Emulator :=
  runCycles s.instructions_per_frame (tickTimers s)

/-- The set of opcodes matched by an implemented dispatch arm; everything
else reaches the fallthrough arm. -/
def implementedOpcode (op : Nat) : Prop :=
  (decode op).raw_instruction = 0x00E0 ∨
  (decode op).first_nibble = 0x1 ∨ (decode op).first_nibble = 0x2 ∨
  (decode op).first_nibble = 0x3 ∨ (decode op).first_nibble = 0x4 ∨
  ((decode op).first_nibble = 0x5 ∧ (decode op).n_4_bit_constant = 0x0) ∨
  (decode op).first_nibble = 0x6 ∨ (decode op).first_nibble = 0x7 ∨
  ((decode op).first_nibble = 0x8 ∧
    ((decode op).n_4_bit_constant = 0x0 ∨ (decode op).n_4_bit_constant = 0x2 ∨
     (decode op).n_4_bit_constant = 0x4)) ∨
  ((decode op).first_nibble = 0x9 ∧ (decode op).n_4_bit_constant = 0x0) ∨
  (decode op).first_nibble = 0xA ∨ (decode op).first_nibble = 0xD ∨
  ((decode op).first_nibble = 0xF ∧
    ((decode op).nn_8_bit_constant = 0x1E ∨ (decode op).nn_8_bit_constant = 0x65))

instance decidableImplementedOpcode (op : Nat) : Decidable (implementedOpcode op) := by
  unfold implementedOpcode
  infer_instance

/-- The state `Chip8Emulator::new` builds for the two-byte ROM 0x1FFF
(a jump to address 0xFFF). -/
def jumpState : Chip8Emulator :=
  { registers := List.replicate 16 0,
    ram := storeBytes (storeBytes (List.replicate 4096 0) 0x50 FONTS)
      0x200 [0x1F, 0xFF],
    index_register := 0, program_counter := 0x200,
    stack := List.replicate 16 0, stack_pointer := 0,
    delay_timer := 0, sound_timer := 0,
    display_buffer := List.replicate 2048 0,
    instructions_per_frame := 1, error_log := [] }

/-- `jumpState` after executing the jump: the program counter sits at 0xFFF. -/
def jumpedState : Chip8Emulator :=
  { jumpState with program_counter := 0xFFF }

/-- An all-empty state used only as the default of `Option.getD`. -/
def dummyState : Chip8Emulator :=
  { registers := [], ram := [], index_register := 0, program_counter := 0,
    stack := [], stack_pointer := 0, delay_timer := 0, sound_timer := 0,
    display_buffer := [], instructions_per_frame := 0, error_log := [] }

/-- A state about to draw a height-1 sprite at (V0, V1) = (0, 32): the first
destination cell index is 32*64 + 0 = 2048, one past the display buffer. -/
def oobDrawState : Chip8Emulator :=
  { registers := (List.replicate 16 0).set 1 32,
    ram := [0xD0, 0x11, 0xFF],
    index_register := 2, program_counter := 0,
    stack := [], stack_pointer := 0, delay_timer := 0, sound_timer := 0,
    display_buffer := List.replicate 2048 0,
    instructions_per_frame := 1, error_log := [] }

/-- A state with flag register 1 about to execute D001, a height-1 draw whose
sprite byte is 0x00: nothing is toggled, so no on-cell is turned off. -/
def c1cex : Chip8Emulator :=
  { registers := (List.replicate 16 0).set 15 1, ram := [0xD0, 0x01, 0x00],
    index_register := 2, program_counter := 0,
    stack := [], stack_pointer := 0, delay_timer := 0, sound_timer := 0,
    display_buffer := List.replicate 2048 0,
    instructions_per_frame := 1, error_log := [] }

/-- A state about to execute D012: draw the 2-row sprite 0xFF / 0xAA at
origin (V0, V1) = (1, 2) onto a cleared display. -/
def c1w : Chip8Emulator :=
  { registers := ((List.replicate 16 0).set 0 1).set 1 2,
    ram := [0xD0, 0x12, 0xFF, 0xAA],
    index_register := 2, program_counter := 0,
    stack := [], stack_pointer := 0, delay_timer := 0, sound_timer := 0,
    display_buffer := List.replicate 384 0,
    instructions_per_frame := 1, error_log := [] }

/-- The state D012 produces from `c1w`. -/
def c1wRes : Chip8Emulator := (c1w.run_instruction).getD dummyState

/-- A state about to execute the unimplemented opcode 0x8FF1. -/
def c5w : Chip8Emulator :=
  { registers := List.replicate 16 0, ram := [0x8F, 0xF1],
    index_register := 0, program_counter := 0,
    stack := [], stack_pointer := 0, delay_timer := 0, sound_timer := 0,
    display_buffer := [], instructions_per_frame := 1, error_log := [] }

/-- A state about to execute 7F01 (add 1 to V15): the claim says 7XNN never
writes the flag register, but here V15 is the destination. -/
def c7cex : Chip8Emulator :=
  { registers := List.replicate 16 0, ram := [0x7F, 0x01],
    index_register := 0, program_counter := 0,
    stack := [], stack_pointer := 0, delay_timer := 0, sound_timer := 0,
    display_buffer := [], instructions_per_frame := 1, error_log := [] }

/-- A state about to execute 7001 (add 1 to V0) with V0 = 254. -/
def c7w : Chip8Emulator :=
  { registers := (List.replicate 16 0).set 0 254, ram := [0x70, 0x01],
    index_register := 0, program_counter := 0,
    stack := [], stack_pointer := 0, delay_timer := 0, sound_timer := 0,
    display_buffer := [], instructions_per_frame := 1, error_log := [] }

/-- The state 7001 produces from `c7w`. -/
def c7wRes : Chip8Emulator := (c7w.run_instruction).getD dummyState

/-- A state about to execute 8F04 (V15 += V0) with V15 = 5 and V0 = 10:
X is 15, so the carry-flag write afterwards overwrites the sum. -/
def c2cex : Chip8Emulator :=
  { registers := ((List.replicate 16 0).set 15 5).set 0 10, ram := [0x8F, 0x04],
    index_register := 0, program_counter := 0,
    stack := [], stack_pointer := 0, delay_timer := 0, sound_timer := 0,
    display_buffer := [], instructions_per_frame := 1, error_log := [] }

/-- A state about to execute 8674 (V6 += V7) with V6 = 254 and V7 = 2. -/
def c2w : Chip8Emulator :=
  { registers := ((List.replicate 16 0).set 6 254).set 7 2, ram := [0x86, 0x74],
    index_register := 0, program_counter := 0,
    stack := [], stack_pointer := 0, delay_timer := 0, sound_timer := 0,
    display_buffer := [], instructions_per_frame := 1, error_log := [] }

/-- The state 8674 produces from `c2w`. -/
def c2wRes : Chip8Emulator := (c2w.run_instruction).getD dummyState

/-- A state about to execute 3105 with V1 = 5 (comparison holds: skip). -/
def c8w3 : Chip8Emulator :=
  { registers := (List.replicate 16 0).set 1 5, ram := [0x31, 0x05],
    index_register := 0, program_counter := 0,
    stack := [], stack_pointer := 0, delay_timer := 0, sound_timer := 0,
    display_buffer := [], instructions_per_frame := 1, error_log := [] }

/-- A state about to execute 4105 with V1 = 5 (comparison fails: no skip). -/
def c8w4 : Chip8Emulator :=
  { registers := (List.replicate 16 0).set 1 5, ram := [0x41, 0x05],
    index_register := 0, program_counter := 0,
    stack := [], stack_pointer := 0, delay_timer := 0, sound_timer := 0,
    display_buffer := [], instructions_per_frame := 1, error_log := [] }

/-- A state about to execute 5120 with V1 = V2 = 7 (skip). -/
def c8w5 : Chip8Emulator :=
  { registers := ((List.replicate 16 0).set 1 7).set 2 7, ram := [0x51, 0x20],
    index_register := 0, program_counter := 0,
    stack := [], stack_pointer := 0, delay_timer := 0, sound_timer := 0,
    display_buffer := [], instructions_per_frame := 1, error_log := [] }

/-- A state about to execute 9120 with V1 = 7, V2 = 9 (skip). -/
def c8w9 : Chip8Emulator :=
  { registers := ((List.replicate 16 0).set 1 7).set 2 9, ram := [0x91, 0x20],
    index_register := 0, program_counter := 0,
    stack := [], stack_pointer := 0, delay_timer := 0, sound_timer := 0,
    display_buffer := [], instructions_per_frame := 1, error_log := [] }

/-- A state about to execute F565 (fill V0..V5 from memory at the index
register), with six known bytes at index 2. -/
def c9w : Chip8Emulator :=
  { registers := List.replicate 16 0,
    ram := [0xF5, 0x65, 0x50, 0x51, 0x52, 0x53, 0x54, 0x55],
    index_register := 2, program_counter := 0,
    stack := [], stack_pointer := 0, delay_timer := 0, sound_timer := 0,
    display_buffer := [], instructions_per_frame := 1, error_log := [] }

/-- The state F565 produces from `c9w`. -/
def c9wRes : Chip8Emulator := (c9w.run_instruction).getD dummyState

/-- A state with delay timer 5 about to run one frame of one jump cycle. -/
def c4w : Chip8Emulator :=
  { registers := List.replicate 16 0, ram := [0x12, 0x34],
    index_register := 0, program_counter := 0,
    stack := [], stack_pointer := 0, delay_timer := 5, sound_timer := 0,
    display_buffer := [], instructions_per_frame := 1, error_log := [] }

/-- The state one 60Hz frame produces from `c4w`. -/
def c4wRes : Chip8Emulator := (c4w.run_60hz_frame).getD dummyState

section Lemmas

lemma eq_some_getD {α : Type} (o : Option α) (d : α) (h : o.isSome = true) :
    o = some (o.getD d) := by
  cases o with
  | none => simp at h
  | some a => rfl

lemma storeBytes_length (l : List Nat) :
    ∀ ram start, (storeBytes ram start l).length = ram.length := by
  induction l with
  | nil => intro ram start; rfl
  | cons b bs ih => intro ram start; simp [storeBytes, ih]

lemma storeBytes_getElem?_lt (l : List Nat) :
    ∀ ram start i, i < start → (storeBytes ram start l)[i]? = ram[i]? := by
  induction l with
  | nil => intro ram start i _; rfl
  | cons b bs ih =>
      intro ram start i hi
      rw [storeBytes, ih _ _ _ (by omega), List.getElem?_set_ne (by omega)]

lemma storeBytes_getElem?_ge (l : List Nat) :
    ∀ ram start i, start + l.length ≤ i →
      (storeBytes ram start l)[i]? = ram[i]? := by
  induction l with
  | nil => intro ram start i _; rfl
  | cons b bs ih =>
      intro ram start i hi
      simp only [List.length_cons] at hi
      rw [storeBytes, ih _ _ _ (by omega), List.getElem?_set_ne (by omega)]

lemma storeBytes_getElem?_mem (l : List Nat) :
    ∀ ram start j, j < l.length → start + l.length ≤ ram.length →
      (storeBytes ram start l)[start + j]? = l[j]? := by
  induction l with
  | nil => intro ram start j hj _; simp at hj
  | cons b bs ih =>
      intro ram start j hj hle
      simp only [List.length_cons] at hj hle
      cases j with
      | zero =>
          rw [storeBytes, storeBytes_getElem?_lt bs _ _ _ (by omega)]
          simpa using List.getElem?_set_self (l := ram) (i := start) (a := b) (by omega)
      | succ j' =>
          rw [storeBytes, show start + (j' + 1) = (start + 1) + j' by omega,
            ih _ _ _ (by omega) (by simp; omega)]
          simp

lemma drawCells_nil (rowByte yRow x : Nat) (acc : List Nat × Bool) :
    drawCells rowByte yRow x [] acc = some acc := rfl

lemma drawCells_cons (rowByte yRow x c : Nat) (cs : List Nat) (disp : List Nat)
    (col : Bool) :
    drawCells rowByte yRow x (c :: cs) (disp, col) =
      Option.bind (disp[yRow * WIDTH + (c + x)]?) (fun cur =>
        if (rowByte &&& (128 >>> c)) != 0 then
          if cur != 0 then
            drawCells rowByte yRow x cs (disp.set (yRow * WIDTH + (c + x)) 0, true)
          else
            drawCells rowByte yRow x cs
              (disp.set (yRow * WIDTH + (c + x)) 0xFFFFFFFF, col)
        else drawCells rowByte yRow x cs (disp, col)) := rfl

lemma drawRows_nil (ram : List Nat) (idx x y : Nat) (acc : List Nat × Bool) :
    drawRows ram idx x y [] acc = some acc := rfl

lemma drawRows_cons (ram : List Nat) (idx x y r : Nat) (rs : List Nat)
    (acc : List Nat × Bool) :
    drawRows ram idx x y (r :: rs) acc =
      Option.bind (ram[idx + r]?) (fun rowByte =>
        Option.bind (drawCells rowByte (r + y) x (List.range 8) acc)
          (fun acc' => drawRows ram idx x y rs acc')) := rfl

lemma fillRegs_nil (ram : List Nat) (base : Nat) (regs : List Nat) :
    fillRegs ram base [] regs = some regs := rfl

lemma fillRegs_cons (ram : List Nat) (base i : Nat) (is : List Nat)
    (regs : List Nat) :
    fillRegs ram base (i :: is) regs =
      Option.bind (ram[base + i]?) (fun v =>
        Option.bind (listSet regs i v) (fun regs' =>
          fillRegs ram base is regs')) := rfl

lemma decode_split (a b c d2 : Nat) (ha : a < 16) (hb : b < 16) (hc : c < 16)
    (hd : d2 < 16) :
    decode (a * 4096 + b * 256 + c * 16 + d2) =
      { first_nibble := a, x_register := b, y_register := c,
        n_4_bit_constant := d2, nn_8_bit_constant := c * 16 + d2,
        nnn_12_bit_address := b * 256 + c * 16 + d2,
        raw_instruction := a * 4096 + b * 256 + c * 16 + d2 } := by
  simp only [decode, Nat.shiftRight_eq_div_pow, DecodedInstruction.mk.injEq]
  norm_num
  refine ⟨?_, ?_, ?_, ?_, ?_, ?_⟩ <;> omega

lemma decode_split2 (a b nn : Nat) (ha : a < 16) (hb : b < 16) (hnn : nn < 256) :
    decode (a * 4096 + b * 256 + nn) =
      { first_nibble := a, x_register := b, y_register := nn / 16,
        n_4_bit_constant := nn % 16, nn_8_bit_constant := nn,
        nnn_12_bit_address := b * 256 + nn,
        raw_instruction := a * 4096 + b * 256 + nn } := by
  simp only [decode, Nat.shiftRight_eq_div_pow, DecodedInstruction.mk.injEq]
  norm_num
  refine ⟨?_, ?_, ?_, ?_, ?_, ?_⟩ <;> omega

lemma runCycles_zero (s : Chip8Emulator) : runCycles 0 s = some s := rfl

lemma runCycles_succ (n : Nat) (s : Chip8Emulator) :
    runCycles (n + 1) s =
      Option.bind s.run_instruction (fun s1 => runCycles n s1) := rfl

lemma fillRegs_spec (ram : List Nat) (base : Nat) :
    ∀ (idxs : List Nat) (regs : List Nat), idxs.Nodup →
      (∀ i ∈ idxs, i < regs.length) →
      (∀ i ∈ idxs, base + i < ram.length) →
      ∃ regs', fillRegs ram base idxs regs = some regs' ∧
        regs'.length = regs.length ∧
        (∀ j ∈ idxs, regs'[j]? = ram[base + j]?) ∧
        (∀ j, j ∉ idxs → regs'[j]? = regs[j]?) := by
  intro idxs
  induction idxs with
  | nil =>
      intro regs _ _ _
      exact ⟨regs, rfl, rfl, by simp, fun j _ => rfl⟩
  | cons i is ih =>
      intro regs hnd hlen hram
      obtain ⟨hnotmem, hndtail⟩ := List.nodup_cons.mp hnd
      have hilen : i < regs.length := hlen i (List.mem_cons_self i is)
      have hiram : base + i < ram.length := hram i (List.mem_cons_self i is)
      obtain ⟨regs', hfill, hlen', hin, hout⟩ :=
        ih (regs.set i (ram[base + i])) hndtail
          (fun j hj => by
            rw [List.length_set]
            exact hlen j (List.mem_cons_of_mem i hj))
          (fun j hj => hram j (List.mem_cons_of_mem i hj))
      refine ⟨regs', ?_, by rw [hlen', List.length_set], ?_, ?_⟩
      · rw [fillRegs_cons, List.getElem?_eq_getElem hiram, Option.some_bind,
          listSet, if_pos hilen, Option.some_bind]
        exact hfill
      · intro j hj
        rcases List.mem_cons.mp hj with rfl | hj'
        · rw [hout j hnotmem, List.getElem?_set_self hilen,
            List.getElem?_eq_getElem hiram]
        · exact hin j hj'
      · intro j hj
        have hji : j ≠ i := fun hh => hj (hh ▸ List.mem_cons_self i is)
        have hjis : j ∉ is := fun hh => hj (List.mem_cons_of_mem i hh)
        rw [hout j hjis, List.getElem?_set_ne (Ne.symm hji)]

lemma listAny_congr {α : Type} (l : List α) (f g : α → Bool)
    (h : ∀ a ∈ l, f a = g a) : l.any f = l.any g := by
  induction l with
  | nil => rfl
  | cons a l ih =>
      simp only [List.any_cons, h a (List.mem_cons_self a l),
        ih (fun b hb => h b (List.mem_cons_of_mem a hb))]

lemma sprite_bit_eq_testBit (byte cc : Nat) (hcc : cc < 8) :
    ((byte &&& (128 >>> cc)) != 0) = byte.testBit (7 - cc) := by
  have h128 : (128 : Nat) >>> cc = 2 ^ (7 - cc) := by
    interval_cases cc <;> rfl
  rw [h128, Nat.and_two_pow]
  cases hbit : byte.testBit (7 - cc)
  · simp
  · simp only [Bool.toNat_true, Nat.one_mul, bne_iff_ne, ne_eq,
      decide_not, decide_eq_true_eq]
    exact (Nat.two_pow_pos (7 - cc)).ne'

lemma sprite_bit_ne_iff (byte cc : Nat) (hcc : cc < 8) :
    (byte &&& (128 >>> cc)) ≠ 0 ↔ byte.testBit (7 - cc) = true := by
  rw [← sprite_bit_eq_testBit byte cc hcc, bne_iff_ne]

lemma drawCells_spec (rowByte yRow x : Nat) :
    ∀ (cs : List Nat) (disp : List Nat) (col : Bool),
      cs.Nodup →
      (∀ cc ∈ cs, yRow * WIDTH + (cc + x) < disp.length) →
      ∃ disp' col', drawCells rowByte yRow x cs (disp, col) = some (disp', col') ∧
        disp'.length = disp.length ∧
        (∀ cc ∈ cs, ∀ old, disp[(yRow * WIDTH + (cc + x))]? = some old →
          disp'[(yRow * WIDTH + (cc + x))]? =
            some (if (rowByte &&& (128 >>> cc)) != 0 then
              (if old ≠ 0 then 0 else 0xFFFFFFFF) else old)) ∧
        (∀ i, (∀ cc ∈ cs, i ≠ yRow * WIDTH + (cc + x)) → disp'[i]? = disp[i]?) ∧
        (col' = (col || cs.any (fun cc => ((rowByte &&& (128 >>> cc)) != 0) &&
          (((disp[(yRow * WIDTH + (cc + x))]?).getD 0) != 0)))) := by
  intro cs
  induction cs with
  | nil =>
      intro disp col _ _
      exact ⟨disp, col, rfl, rfl, by simp, fun i _ => rfl, by simp⟩
  | cons c0 cs ih =>
      intro disp col hnd hin
      obtain ⟨hc0notmem, hndtail⟩ := List.nodup_cons.mp hnd
      have hd0 : yRow * WIDTH + (c0 + x) < disp.length :=
        hin c0 (List.mem_cons_self c0 cs)
      have hget0 : disp[(yRow * WIDTH + (c0 + x))]? =
          some disp[yRow * WIDTH + (c0 + x)] := List.getElem?_eq_getElem hd0
      have hdestne : ∀ cc ∈ cs, yRow * WIDTH + (c0 + x) ≠ yRow * WIDTH + (cc + x) := by
        intro cc hcc hcontra
        exact hc0notmem (by
          have : c0 = cc := by omega
          exact this ▸ hcc)
      by_cases hpix : ((rowByte &&& (128 >>> c0)) != 0) = true
      · by_cases hcur : (disp[yRow * WIDTH + (c0 + x)] != 0) = true
        · -- pixel on, destination already lit: clear it, record a collision
          obtain ⟨disp', col', hrun', hlen', hin', hout', hcol'⟩ :=
            ih (disp.set (yRow * WIDTH + (c0 + x)) 0) true hndtail
              (fun cc hcc => by
                rw [List.length_set]
                exact hin cc (List.mem_cons_of_mem c0 hcc))
          refine ⟨disp', col', ?_, by rw [hlen', List.length_set], ?_, ?_, ?_⟩
          · rw [drawCells_cons, hget0, Option.some_bind, if_pos hpix, if_pos hcur]
            exact hrun'
          · intro cc hcc old hold
            rcases List.mem_cons.mp hcc with rfl | hcc'
            · have hold' : old = disp[yRow * WIDTH + (cc + x)] :=
                Option.some.inj (hold.symm.trans hget0)
              have hcond : old ≠ 0 := by
                rw [hold']
                exact bne_iff_ne.mp hcur
              rw [hout' _ (fun cc' hcc' => hdestne cc' hcc'),
                List.getElem?_set_self hd0, if_pos hpix, if_pos hcond]
            · have : (disp.set (yRow * WIDTH + (c0 + x)) 0)[(yRow * WIDTH +
                  (cc + x))]? = some old := by
                rw [List.getElem?_set_ne (hdestne cc hcc')]
                exact hold
              exact hin' cc hcc' old this
          · intro i hi
            rw [hout' i (fun cc hcc => hi cc (List.mem_cons_of_mem c0 hcc)),
              List.getElem?_set_ne (fun hh => hi c0 (List.mem_cons_self c0 cs) hh.symm)]
          · rw [hcol', Bool.true_or, List.any_cons, hget0]
            simp only [Option.getD_some, hpix, hcur, Bool.true_and, Bool.true_or,
              Bool.or_true]
        · -- pixel on, destination off: light it, no collision here
          obtain ⟨disp', col', hrun', hlen', hin', hout', hcol'⟩ :=
            ih (disp.set (yRow * WIDTH + (c0 + x)) 0xFFFFFFFF) col hndtail
              (fun cc hcc => by
                rw [List.length_set]
                exact hin cc (List.mem_cons_of_mem c0 hcc))
          refine ⟨disp', col', ?_, by rw [hlen', List.length_set], ?_, ?_, ?_⟩
          · rw [drawCells_cons, hget0, Option.some_bind, if_pos hpix, if_neg hcur]
            exact hrun'
          · intro cc hcc old hold
            rcases List.mem_cons.mp hcc with rfl | hcc'
            · have hold' : old = disp[yRow * WIDTH + (cc + x)] :=
                Option.some.inj (hold.symm.trans hget0)
              have hcond : ¬(old ≠ 0) := by
                rw [hold']
                simpa using hcur
              rw [hout' _ (fun cc' hcc' => hdestne cc' hcc'),
                List.getElem?_set_self hd0, if_pos hpix, if_neg hcond]
            · have : (disp.set (yRow * WIDTH + (c0 + x)) 0xFFFFFFFF)[(yRow * WIDTH +
                  (cc + x))]? = some old := by
                rw [List.getElem?_set_ne (hdestne cc hcc')]
                exact hold
              exact hin' cc hcc' old this
          · intro i hi
            rw [hout' i (fun cc hcc => hi cc (List.mem_cons_of_mem c0 hcc)),
              List.getElem?_set_ne (fun hh => hi c0 (List.mem_cons_self c0 cs) hh.symm)]
          · rw [hcol', List.any_cons, hget0]
            have hany : cs.any (fun cc => ((rowByte &&& (128 >>> cc)) != 0) &&
                  ((((disp.set (yRow * WIDTH + (c0 + x)) 0xFFFFFFFF)[(yRow * WIDTH +
                    (cc + x))]?).getD 0) != 0)) =
                cs.any (fun cc => ((rowByte &&& (128 >>> cc)) != 0) &&
                  (((disp[(yRow * WIDTH + (cc + x))]?).getD 0) != 0)) :=
              listAny_congr _ _ _ (fun cc hcc => by
                rw [List.getElem?_set_ne (hdestne cc hcc)])
            have hcurf : (disp[yRow * WIDTH + (c0 + x)] != 0) = false := by
              simpa using hcur
            rw [hany]
            simp only [Option.getD_some, hpix, Bool.true_and, hcurf, Bool.false_or]
      · -- pixel off: nothing changes at this column
        obtain ⟨disp', col', hrun', hlen', hin', hout', hcol'⟩ :=
          ih disp col hndtail
            (fun cc hcc => hin cc (List.mem_cons_of_mem c0 hcc))
        refine ⟨disp', col', ?_, hlen', ?_, ?_, ?_⟩
        · rw [drawCells_cons, hget0, Option.some_bind, if_neg hpix]
          exact hrun'
        · intro cc hcc old hold
          rcases List.mem_cons.mp hcc with rfl | hcc'
          · rw [hout' _ (fun cc' hcc' => hdestne cc' hcc'), hold, if_neg hpix]
          · exact hin' cc hcc' old hold
        · intro i hi
          exact hout' i (fun cc hcc => hi cc (List.mem_cons_of_mem c0 hcc))
        · rw [hcol', List.any_cons]
          rw [show ((rowByte &&& (128 >>> c0)) != 0) = false from by
            simpa using hpix]
          simp only [Bool.false_and, Bool.false_or]

lemma drawRows_spec (ram : List Nat) (idx x y : Nat) :
    ∀ (rs : List Nat) (disp : List Nat) (col : Bool),
      rs.Nodup →
      (∀ r ∈ rs, (r + y) * WIDTH + (x + 7) < disp.length) →
      (∀ r ∈ rs, idx + r < ram.length) →
      ∃ disp' col', drawRows ram idx x y rs (disp, col) = some (disp', col') ∧
        disp'.length = disp.length ∧
        (∀ r ∈ rs, ∀ cc, cc < 8 → ∀ byte old,
          ram[idx + r]? = some byte →
          disp[((r + y) * WIDTH + (cc + x))]? = some old →
          disp'[((r + y) * WIDTH + (cc + x))]? =
            some (if (byte &&& (128 >>> cc)) != 0 then
              (if old ≠ 0 then 0 else 0xFFFFFFFF) else old)) ∧
        (∀ i, (∀ r ∈ rs, ∀ cc, cc < 8 → i ≠ (r + y) * WIDTH + (cc + x)) →
          disp'[i]? = disp[i]?) ∧
        (col' = (col || rs.any (fun r => (List.range 8).any (fun cc =>
          ((((ram[idx + r]?).getD 0) &&& (128 >>> cc)) != 0) &&
          (((disp[((r + y) * WIDTH + (cc + x))]?).getD 0) != 0))))) := by
  intro rs
  induction rs with
  | nil =>
      intro disp col _ _ _
      exact ⟨disp, col, rfl, rfl, by simp, fun i _ => rfl, by simp⟩
  | cons r0 rs ih =>
      intro disp col hnd hdisp hram
      obtain ⟨hr0notmem, hndtail⟩ := List.nodup_cons.mp hnd
      have hr0ram : idx + r0 < ram.length := hram r0 (List.mem_cons_self r0 rs)
      have hbyte0 : ram[idx + r0]? = some ram[idx + r0] :=
        List.getElem?_eq_getElem hr0ram
      have hd0 : ∀ cc ∈ List.range 8, (r0 + y) * WIDTH + (cc + x) < disp.length := by
        intro cc hcc
        have hcc8 : cc < 8 := List.mem_range.mp hcc
        have := hdisp r0 (List.mem_cons_self r0 rs)
        simp only [WIDTH] at this ⊢
        omega
      obtain ⟨disp1, col1, hrun1, hlen1, hin1, hout1, hcol1⟩ :=
        drawCells_spec ram[idx + r0] (r0 + y) x (List.range 8) disp col
          (List.nodup_range 8) hd0
      obtain ⟨disp', col', hrun', hlen', hin', hout', hcol'⟩ :=
        ih disp1 col1 hndtail
          (fun r hr => by
            rw [hlen1]
            exact hdisp r (List.mem_cons_of_mem r0 hr))
          (fun r hr => hram r (List.mem_cons_of_mem r0 hr))
      have hrowsep : ∀ r ∈ rs, ∀ cc cc', cc < 8 → cc' < 8 →
          (r + y) * WIDTH + (cc + x) ≠ (r0 + y) * WIDTH + (cc' + x) := by
        intro r hr cc cc' hcc hcc' hcontra
        have hne : r ≠ r0 := fun hh => hr0notmem (hh ▸ hr)
        simp only [WIDTH] at hcontra
        omega
      refine ⟨disp', col', ?_, by rw [hlen', hlen1], ?_, ?_, ?_⟩
      · rw [drawRows_cons, hbyte0, Option.some_bind, hrun1, Option.some_bind]
        exact hrun'
      · intro r hr cc hcc byte old hbyte hold
        rcases List.mem_cons.mp hr with rfl | hr'
        · -- the row handled by this iteration; remaining rows do not touch it
          have hbyteeq : byte = ram[idx + r] :=
            Option.some.inj (hbyte.symm.trans hbyte0)
          rw [hout' _ (fun r' hr' cc' hcc' =>
              (hrowsep r' hr' cc' cc hcc' hcc).symm),
            hin1 cc (List.mem_range.mpr hcc) old hold, hbyteeq]
        · -- a later row: this iteration leaves its cells untouched
          have hold1 : disp1[((r + y) * WIDTH + (cc + x))]? = some old := by
            rw [hout1 _ (fun cc' hcc' =>
              hrowsep r hr' cc cc' hcc (List.mem_range.mp hcc'))]
            exact hold
          exact hin' r hr' cc hcc byte old hbyte hold1
      · intro i hi
        rw [hout' i (fun r hr cc hcc =>
            hi r (List.mem_cons_of_mem r0 hr) cc hcc),
          hout1 i (fun cc hcc =>
            hi r0 (List.mem_cons_self r0 rs) cc (List.mem_range.mp hcc))]
      · rw [hcol', hcol1, List.any_cons, Bool.or_assoc]
        congr 1
        congr 1
        · rw [hbyte0]
          rfl
        · refine listAny_congr _ _ _ (fun r hr => ?_)
          refine listAny_congr _ _ _ (fun cc hcc => ?_)
          rw [hout1 _ (fun cc' hcc' =>
            hrowsep r hr cc cc' (List.mem_range.mp hcc) (List.mem_range.mp hcc'))]

lemma armSkip {c : Prop} [Decidable c] {t e : Option Chip8Emulator}
    (h : ¬c) : (if c then t else e) = e := if_neg h

lemma run_arm_3xnn (s : Chip8Emulator) (b nn vx : Nat) (hb : b < 16)
    (hnn : nn < 256) (hfetch : s.fetch = some (0x3 * 4096 + b * 256 + nn))
    (hvx : s.registers[b]? = some vx) :
    s.run_instruction = some { s with program_counter :=
      if vx = nn then ((s.program_counter + 2) % 65536 + 2) % 65536
      else (s.program_counter + 2) % 65536 } := by
  rw [Chip8Emulator.run_instruction, hfetch]
  simp only [Option.bind_eq_bind, Option.some_bind]
  rw [decode_split2 3 b nn (by norm_num) hb hnn]
  dsimp only
  rw [armSkip (by omega), armSkip (by omega), armSkip (by omega), if_pos rfl, hvx]
  simp only [Option.some_bind]
  by_cases hc : vx = nn
  · rw [if_pos hc, if_pos hc]
  · rw [if_neg hc, if_neg hc]

lemma run_arm_4xnn (s : Chip8Emulator) (b nn vx : Nat) (hb : b < 16)
    (hnn : nn < 256) (hfetch : s.fetch = some (0x4 * 4096 + b * 256 + nn))
    (hvx : s.registers[b]? = some vx) :
    s.run_instruction = some { s with program_counter :=
      if vx ≠ nn then ((s.program_counter + 2) % 65536 + 2) % 65536
      else (s.program_counter + 2) % 65536 } := by
  rw [Chip8Emulator.run_instruction, hfetch]
  simp only [Option.bind_eq_bind, Option.some_bind]
  rw [decode_split2 4 b nn (by norm_num) hb hnn]
  dsimp only
  rw [armSkip (by omega), armSkip (by omega), armSkip (by omega), armSkip (by omega),
    if_pos rfl, hvx]
  simp only [Option.some_bind]
  by_cases hc : vx ≠ nn
  · rw [if_pos hc, if_pos hc]
  · rw [if_neg hc, if_neg hc]

lemma run_arm_5xy0 (s : Chip8Emulator) (b c vx vy : Nat) (hb : b < 16)
    (hc : c < 16) (hfetch : s.fetch = some (0x5 * 4096 + b * 256 + c * 16 + 0))
    (hvx : s.registers[b]? = some vx) (hvy : s.registers[c]? = some vy) :
    s.run_instruction = some { s with program_counter :=
      if vx = vy then ((s.program_counter + 2) % 65536 + 2) % 65536
      else (s.program_counter + 2) % 65536 } := by
  rw [Chip8Emulator.run_instruction, hfetch]
  simp only [Option.bind_eq_bind, Option.some_bind]
  rw [decode_split 5 b c 0 (by norm_num) hb hc (by norm_num)]
  dsimp only
  rw [armSkip (by omega), armSkip (by omega), armSkip (by omega), armSkip (by omega),
    armSkip (by omega), if_pos ⟨rfl, rfl⟩, hvx]
  simp only [Option.some_bind]
  rw [hvy]
  simp only [Option.some_bind]
  by_cases hcc : vx = vy
  · rw [if_pos hcc, if_pos hcc]
  · rw [if_neg hcc, if_neg hcc]

lemma run_arm_9xy0 (s : Chip8Emulator) (b c vx vy : Nat) (hb : b < 16)
    (hc : c < 16) (hfetch : s.fetch = some (0x9 * 4096 + b * 256 + c * 16 + 0))
    (hvx : s.registers[b]? = some vx) (hvy : s.registers[c]? = some vy) :
    s.run_instruction = some { s with program_counter :=
      if vx ≠ vy then ((s.program_counter + 2) % 65536 + 2) % 65536
      else (s.program_counter + 2) % 65536 } := by
  rw [Chip8Emulator.run_instruction, hfetch]
  simp only [Option.bind_eq_bind, Option.some_bind]
  rw [decode_split 9 b c 0 (by norm_num) hb hc (by norm_num)]
  dsimp only
  rw [armSkip (by omega), armSkip (by omega), armSkip (by omega), armSkip (by omega),
    armSkip (by omega), armSkip (by omega), armSkip (by omega), armSkip (by omega),
    armSkip (by omega), armSkip (by omega), armSkip (by omega),
    if_pos ⟨rfl, rfl⟩, hvx]
  simp only [Option.some_bind]
  rw [hvy]
  simp only [Option.some_bind]
  by_cases hcc : vx ≠ vy
  · rw [if_pos hcc, if_pos hcc]
  · rw [if_neg hcc, if_neg hcc]

lemma run_arm_7xnn (s : Chip8Emulator) (b nn vx : Nat) (hb : b < 16)
    (hnn : nn < 256) (hfetch : s.fetch = some (0x7 * 4096 + b * 256 + nn))
    (hvx : s.registers[b]? = some vx) :
    s.run_instruction = some { s with
      program_counter := (s.program_counter + 2) % 65536,
      registers := s.registers.set b ((vx + nn) % 256) } := by
  have hblen : b < s.registers.length := (List.getElem?_eq_some_iff.mp hvx).1
  rw [Chip8Emulator.run_instruction, hfetch]
  simp only [Option.bind_eq_bind, Option.some_bind]
  rw [decode_split2 7 b nn (by norm_num) hb hnn]
  dsimp only
  rw [armSkip (by omega), armSkip (by omega), armSkip (by omega), armSkip (by omega),
    armSkip (by omega), armSkip (by omega), armSkip (by omega), if_pos rfl, hvx]
  simp only [Option.some_bind]
  rw [listSet, if_pos hblen]
  simp only [Option.some_bind]

lemma run_arm_8xy4 (s : Chip8Emulator) (b c vx vy : Nat) (hb : b < 16)
    (hc : c < 16) (hlen : s.registers.length = 16)
    (hfetch : s.fetch = some (0x8 * 4096 + b * 256 + c * 16 + 4))
    (hvx : s.registers[b]? = some vx) (hvy : s.registers[c]? = some vy) :
    s.run_instruction = some { s with
      program_counter := (s.program_counter + 2) % 65536,
      registers := (s.registers.set b ((vx + vy) % 256)).set 0xF
        (if 255 < vx + vy then 1 else 0) } := by
  rw [Chip8Emulator.run_instruction, hfetch]
  simp only [Option.bind_eq_bind, Option.some_bind]
  rw [decode_split 8 b c 4 (by norm_num) hb hc (by norm_num)]
  dsimp only
  rw [armSkip (by omega), armSkip (by omega), armSkip (by omega), armSkip (by omega),
    armSkip (by omega), armSkip (by omega), armSkip (by omega), armSkip (by omega),
    armSkip (by omega), armSkip (by omega), if_pos ⟨rfl, rfl⟩, hvx]
  simp only [Option.some_bind]
  rw [hvy]
  simp only [Option.some_bind]
  rw [listSet, if_pos (by omega)]
  simp only [Option.some_bind]
  rw [listSet, if_pos (by rw [List.length_set]; omega)]
  simp only [Option.some_bind]

lemma run_arm_dxyn (s : Chip8Emulator) (b c n vx vy : Nat) (hb : b < 16)
    (hc : c < 16) (hn : n < 16)
    (hfetch : s.fetch = some (0xD * 4096 + b * 256 + c * 16 + n))
    (hvx : s.registers[b]? = some vx) (hvy : s.registers[c]? = some vy) :
    s.run_instruction = Option.bind
      (drawRows s.ram s.index_register vx vy (List.range n)
        (s.display_buffer, false))
      (fun acc => Option.bind
        (if acc.2 then listSet s.registers 0xF 1 else some s.registers)
        (fun regs' => some { s with
          program_counter := (s.program_counter + 2) % 65536,
          display_buffer := acc.1, registers := regs' })) := by
  rw [Chip8Emulator.run_instruction, hfetch]
  simp only [Option.bind_eq_bind, Option.some_bind]
  rw [decode_split 13 b c n (by norm_num) hb hc hn]
  dsimp only
  rw [armSkip (by omega), armSkip (by omega), armSkip (by omega), armSkip (by omega),
    armSkip (by omega), armSkip (by omega), armSkip (by omega), armSkip (by omega),
    armSkip (by omega), armSkip (by omega), armSkip (by omega), armSkip (by omega),
    armSkip (by omega), if_pos rfl, hvx]
  simp only [Option.some_bind]
  rw [hvy]
  simp only [Option.some_bind]
  congr 1
  funext acc
  by_cases hcol : acc.2 = true
  · rw [if_pos hcol, if_pos hcol]
  · rw [if_neg hcol, if_neg hcol, Option.some_bind]

lemma run_arm_fx65 (s : Chip8Emulator) (b : Nat) (hb : b < 16)
    (hfetch : s.fetch = some (0xF * 4096 + b * 256 + 0x65)) :
    s.run_instruction = Option.bind
      (fillRegs s.ram s.index_register (List.range (b + 1)) s.registers)
      (fun regs' => some { s with
        program_counter := (s.program_counter + 2) % 65536,
        registers := regs' }) := by
  rw [Chip8Emulator.run_instruction, hfetch]
  simp only [Option.bind_eq_bind, Option.some_bind]
  rw [decode_split2 15 b 0x65 (by norm_num) hb (by norm_num)]
  dsimp only
  rw [armSkip (by omega), armSkip (by omega), armSkip (by omega), armSkip (by omega),
    armSkip (by omega), armSkip (by omega), armSkip (by omega), armSkip (by omega),
    armSkip (by omega), armSkip (by omega), armSkip (by omega), armSkip (by omega),
    armSkip (by omega), armSkip (by omega), armSkip (by omega), if_pos ⟨rfl, rfl⟩]

lemma run_arm_unimplemented (s : Chip8Emulator) (op : Nat)
    (hfetch : s.fetch = some op) (himpl : ¬ implementedOpcode op) :
    s.run_instruction = some { s with
      program_counter := (s.program_counter + 2) % 65536,
      error_log := s.error_log ++ [op] } := by
  unfold implementedOpcode at himpl
  simp only [not_or] at himpl
  obtain ⟨h00, h1, h2, h3, h4, h5, h6, h7, h8, h9, hA, hD, hF⟩ := himpl
  have h8a : ¬((decode op).first_nibble = 0x8 ∧ (decode op).n_4_bit_constant = 0x0) :=
    fun hh => h8 ⟨hh.1, Or.inl hh.2⟩
  have h8b : ¬((decode op).first_nibble = 0x8 ∧ (decode op).n_4_bit_constant = 0x2) :=
    fun hh => h8 ⟨hh.1, Or.inr (Or.inl hh.2)⟩
  have h8c : ¬((decode op).first_nibble = 0x8 ∧ (decode op).n_4_bit_constant = 0x4) :=
    fun hh => h8 ⟨hh.1, Or.inr (Or.inr hh.2)⟩
  have hFa : ¬((decode op).first_nibble = 0xF ∧ (decode op).nn_8_bit_constant = 0x1E) :=
    fun hh => hF ⟨hh.1, Or.inl hh.2⟩
  have hFb : ¬((decode op).first_nibble = 0xF ∧ (decode op).nn_8_bit_constant = 0x65) :=
    fun hh => hF ⟨hh.1, Or.inr hh.2⟩
  rw [Chip8Emulator.run_instruction, hfetch]
  simp only [Option.bind_eq_bind, Option.some_bind]
  rw [if_neg h00, if_neg h1, if_neg h2, if_neg h3, if_neg h4, if_neg h5,
    if_neg h6, if_neg h7, if_neg h8a, if_neg h8b, if_neg h8c, if_neg h9,
    if_neg hA, if_neg hD, if_neg hFa, if_neg hFb]
  rfl

lemma run_instruction_preserves_timers (s s' : Chip8Emulator)
    (h : s.run_instruction = some s') :
    s'.delay_timer = s.delay_timer ∧ s'.sound_timer = s.sound_timer ∧
    s'.instructions_per_frame = s.instructions_per_frame := by
  rw [Chip8Emulator.run_instruction] at h
  rcases hfetch : s.fetch with _ | op
  · rw [hfetch] at h
    simp only [Option.bind_eq_bind, Option.none_bind] at h
    exact Option.noConfusion h
  · rw [hfetch] at h
    simp only [Option.bind_eq_bind, Option.some_bind] at h
    repeat'
      first
      | (rw [ite_eq_iff] at h
         rcases h with ⟨hcond, h⟩ | ⟨hcond, h⟩)
      | (rw [Option.bind_eq_some] at h
         obtain ⟨_, _, h⟩ := h
         try dsimp only at h)
    all_goals
      obtain hs' := Option.some.inj h
      subst hs'
      exact ⟨rfl, rfl, rfl⟩

lemma runCycles_preserves_timers : ∀ (k : Nat) (s s' : Chip8Emulator),
    runCycles k s = some s' →
    s'.delay_timer = s.delay_timer ∧ s'.sound_timer = s.sound_timer ∧
    s'.instructions_per_frame = s.instructions_per_frame := by
  intro k
  induction k with
  | zero =>
      intro s s' h
      obtain hs' := Option.some.inj h
      subst hs'
      exact ⟨rfl, rfl, rfl⟩
  | succ n ih =>
      intro s s' h
      rw [runCycles_succ] at h
      obtain ⟨s1, h1, h2⟩ := Option.bind_eq_some.mp h
      obtain ⟨d1, t1, i1⟩ := run_instruction_preserves_timers s s1 h1
      obtain ⟨d2, t2, i2⟩ := ih s1 s' h2
      exact ⟨d2.trans d1, t2.trans t1, i2.trans i1⟩

end Lemmas

/-- Claim C3: construction from any ROM of length at most 3584 bytes succeeds
and yields a CPU whose memory bytes 0x50 through 0x9F equal the fixed 80-byte
font table, whose program counter is 0x200, and whose registers, stack,
timers, and display are all zero; construction from any ROM of length greater
than 3584 bytes always fails and produces no CPU instance. -/
theorem c3_construction (rom : List Nat) (ipf : Nat) :
    (rom.length ≤ 3584 → (Chip8Emulator.new rom ipf).isSome = true) ∧
    (∀ s, Chip8Emulator.new rom ipf = some s →
      s.ram.length = 4096 ∧
      (∀ i, i < 80 → s.ram[0x50 + i]? = FONTS[i]?) ∧
      s.program_counter = 0x200 ∧
      s.registers = List.replicate 16 0 ∧
      s.stack = List.replicate 16 0 ∧
      s.stack_pointer = 0 ∧
      s.index_register = 0 ∧
      s.delay_timer = 0 ∧
      s.sound_timer = 0 ∧
      s.display_buffer = List.replicate 2048 0 ∧
      s.error_log = []) ∧
    (3584 < rom.length → Chip8Emulator.new rom ipf = none) := by
  have hmax : PROGRAM_MAX_SIZE = 3584 := by decide
  refine ⟨?_, ?_, ?_⟩
  · intro h
    rw [Chip8Emulator.new, if_pos (by omega)]
    rfl
  · intro s hs
    rw [Chip8Emulator.new] at hs
    by_cases h : rom.length ≤ PROGRAM_MAX_SIZE
    · rw [if_pos h] at hs
      have hs' := Option.some.inj hs
      subst hs'
      have hF : FONTS.length = 80 := rfl
      refine ⟨?_, ?_, rfl, rfl, rfl, rfl, rfl, rfl, rfl, rfl, rfl⟩
      · show (storeBytes (storeBytes (List.replicate RAM_SIZE 0) 0x50 FONTS)
          PROGRAM_START_ADDRESS rom).length = 4096
        rw [storeBytes_length, storeBytes_length, List.length_replicate]
        rfl
      · intro i hi
        show (storeBytes (storeBytes (List.replicate RAM_SIZE 0) 0x50 FONTS)
          PROGRAM_START_ADDRESS rom)[0x50 + i]? = FONTS[i]?
        rw [storeBytes_getElem?_lt rom _ _ _
            (by norm_num [PROGRAM_START_ADDRESS]; omega),
          storeBytes_getElem?_mem FONTS _ 0x50 i (by omega)
            (by rw [List.length_replicate, hF]; norm_num [RAM_SIZE])]
    · rw [if_neg h] at hs
      exact absurd hs (by simp)
  · intro h
    rw [Chip8Emulator.new, armSkip (by omega)]

/-- Witness for C3 at the concrete ROMs `[]` (construction succeeds, fonts
and initial state as specified) and `List.replicate 3585 0` (construction
fails). -/
theorem c3_construction_witness :
    (Chip8Emulator.new [] 3).isSome = true ∧
    ((Chip8Emulator.new [] 3).getD dummyState).ram[0x50]? = some 0xF0 ∧
    ((Chip8Emulator.new [] 3).getD dummyState).ram[0x9F]? = some 0x80 ∧
    ((Chip8Emulator.new [] 3).getD dummyState).program_counter = 0x200 ∧
    ((Chip8Emulator.new [] 3).getD dummyState).registers = List.replicate 16 0 ∧
    Chip8Emulator.new (List.replicate 3585 0) 3 = none := by
  have h1 : (Chip8Emulator.new [] 3).isSome = true :=
    (c3_construction [] 3).1 (by simp)
  have h2 := (c3_construction [] 3).2.1 ((Chip8Emulator.new [] 3).getD dummyState)
    (eq_some_getD _ _ h1)
  refine ⟨h1, ?_, ?_, h2.2.2.1, h2.2.2.2.1,
    (c3_construction _ 3).2.2 (by simp only [List.length_replicate]; omega)⟩
  · exact h2.2.1 0 (by omega)
  · exact h2.2.1 79 (by omega)

/-- Claim C10: instruction execution is not total over reachable states: after
executing opcode 0x1FFF from the freshly constructed state, the program
counter is 0xFFF; the next fetch reads memory at 0xFFF (in bounds) and at
0x1000 (out of the 4096-byte memory), so the dispatch cycle fails. -/
theorem c10_fetch_out_of_bounds :
    ∃ s1 s2, Chip8Emulator.new [0x1F, 0xFF] 1 = some s1 ∧
      s1.run_instruction = some s2 ∧
      s2.program_counter = 0xFFF ∧
      s2.ram.length = 4096 ∧
      (s2.ram[s2.program_counter]?).isSome = true ∧
      s2.ram[s2.program_counter + 1]? = none ∧
      s2.run_instruction = none := by
  have hram1len : (storeBytes (List.replicate 4096 0) 0x50 FONTS).length = 4096 := by
    rw [storeBytes_length, List.length_replicate]
  have hlen : jumpState.ram.length = 4096 := by
    show (storeBytes _ 0x200 [0x1F, 0xFF]).length = 4096
    rw [storeBytes_length, hram1len]
  have hget200 : jumpState.ram[0x200]? = some 0x1F := by
    have h := storeBytes_getElem?_mem [0x1F, 0xFF]
      (storeBytes (List.replicate 4096 0) 0x50 FONTS) 0x200 0 (by norm_num)
      (by rw [hram1len]; norm_num)
    exact h
  have hget201 : jumpState.ram[0x201]? = some 0xFF := by
    have h := storeBytes_getElem?_mem [0x1F, 0xFF]
      (storeBytes (List.replicate 4096 0) 0x50 FONTS) 0x200 1 (by norm_num)
      (by rw [hram1len]; norm_num)
    exact h
  have hfetch1 : jumpState.fetch = some 0x1FFF := by
    have hform : jumpState.fetch = Option.bind (jumpState.ram[0x200]?)
        (fun hi => Option.bind (jumpState.ram[0x201]?)
          (fun lo => some (hi * 256 + lo))) := rfl
    rw [hform, hget200, Option.some_bind, hget201, Option.some_bind]
  have hrun1 : jumpState.run_instruction = some jumpedState := by
    rw [Chip8Emulator.run_instruction, hfetch1]
    simp only [Option.bind_eq_bind, Option.some_bind]
    norm_num [decode, Nat.shiftRight_eq_div_pow]
    rfl
  have hgetFFF : jumpedState.ram[0xFFF]? = some 0 := by
    show (storeBytes _ 0x200 [0x1F, 0xFF])[0xFFF]? = some 0
    rw [storeBytes_getElem?_ge [0x1F, 0xFF] _ _ _ (by norm_num),
      storeBytes_getElem?_ge FONTS _ _ _ (by norm_num [FONTS]),
      List.getElem?_replicate_of_lt (by norm_num)]
  have hget1000 : jumpedState.ram[0x1000]? = none := by
    apply List.getElem?_eq_none
    have hlen' : jumpedState.ram.length = 4096 := hlen
    rw [hlen']
  have hfetch2 : jumpedState.fetch = none := by
    have hform : jumpedState.fetch = Option.bind (jumpedState.ram[0xFFF]?)
        (fun hi => Option.bind (jumpedState.ram[0x1000]?)
          (fun lo => some (hi * 256 + lo))) := rfl
    rw [hform, hgetFFF, Option.some_bind, hget1000]
    rfl
  have hrun2 : jumpedState.run_instruction = none := by
    rw [Chip8Emulator.run_instruction, hfetch2]
    rfl
  refine ⟨jumpState, jumpedState, ?_, hrun1, rfl, hlen, ?_, ?_, hrun2⟩
  · rw [Chip8Emulator.new, if_pos (by decide)]
    rfl
  · show (jumpedState.ram[0xFFF]?).isSome = true
    rw [hgetFFF]
    rfl
  · exact hget1000

/-- Claim C6: the DXYN destination cell index is computed as
(y+r)*WIDTH + (x+c) with no clamping and no wraparound, so a draw with
V1 = 32 as the vertical origin immediately accesses cell index
32*64 + 0 = 2048, one past the end of the 64*32-cell display buffer, and the
out-of-range branch of the embedded draw (a `none` result, a panic in the
source) is reached. -/
theorem c6_draw_out_of_range :
    oobDrawState.display_buffer.length = WIDTH * HEIGHT ∧
    drawCells 0xFF 32 0 (List.range 8) (oobDrawState.display_buffer, false) = none ∧
    oobDrawState.run_instruction = none := by
  have hdisp : (List.replicate 2048 (0 : Nat))[2048]? = none :=
    List.getElem?_eq_none (by rw [List.length_replicate])
  have hcells : drawCells 0xFF 32 0 (List.range 8)
      (List.replicate 2048 0, false) = none := by
    rw [show List.range 8 = 0 :: [1, 2, 3, 4, 5, 6, 7] from by decide,
      drawCells_cons, show 32 * WIDTH + (0 + 0) = 2048 from rfl, hdisp]
    rfl
  have hfetch : oobDrawState.fetch = some 0xD011 := rfl
  have harm := run_arm_dxyn oobDrawState 0 1 1 0 32 (by norm_num) (by norm_num)
    (by norm_num) rfl rfl rfl
  have hdr : drawRows oobDrawState.ram oobDrawState.index_register 0 32
      (List.range 1) (oobDrawState.display_buffer, false) = none := by
    rw [show List.range 1 = [0] from by decide, drawRows_cons,
      show oobDrawState.ram[oobDrawState.index_register + 0]? = some 0xFF from rfl,
      Option.some_bind, show (0 : Nat) + 32 = 32 from rfl,
      show oobDrawState.display_buffer = List.replicate 2048 0 from rfl, hcells]
    rfl
  have hrun : oobDrawState.run_instruction = none := by
    rw [harm, hdr]
    rfl
  refine ⟨?_, hcells, hrun⟩
  rw [show oobDrawState.display_buffer = List.replicate 2048 0 from rfl,
    List.length_replicate]
  rfl

/-- Claim C5: for every opcode that matches none of the implemented cases,
one dispatch cycle reports the raw opcode (appends it to the observability
log), changes no machine state other than the program counter (already
advanced by 2 past the instruction), and never aborts the run (the result is
`some`, never `none`). -/
theorem c5_unimplemented_opcode_noop (s : Chip8Emulator) (op : Nat)
    (hfetch : s.fetch = some op) (himpl : ¬ implementedOpcode op) :
    s.run_instruction = some { s with
      program_counter := (s.program_counter + 2) % 65536,
      error_log := s.error_log ++ [op] } :=
  run_arm_unimplemented s op hfetch himpl

/-- Witness for C5 at the unimplemented opcode 0x8FF1 (an 8XY1 instruction,
which this emulator does not implement). -/
theorem c5_unimplemented_opcode_noop_witness :
    c5w.run_instruction = some { c5w with
      program_counter := 2,
      error_log := [0x8FF1] } :=
  c5_unimplemented_opcode_noop c5w 0x8FF1 rfl (by decide)

/-- Counterexample for C7 as stated: executing 7F01 (X = 15) from a state
with flag register 0 leaves the flag register equal to 1: the flag register
is written by 7XNN when X itself is 15. -/
theorem c7_flag_written_counterexample :
    c7cex.registers[15]? = some 0 ∧
    ((c7cex.run_instruction).map (fun t => t.registers[15]?)) = some (some 1) := by
  decide

/-- Claim C7 (amended): 7XNN sets VX to (VX + NN) mod 256 and leaves every
other register — in particular, when X is not 15, the flag register —
unchanged, as well as every other machine component; the flag register is
written only when X itself is 15 (V15 being the destination). -/
theorem c7_add_without_flag (s : Chip8Emulator) (b nn vx : Nat)
    (s' : Chip8Emulator) (hb : b < 16) (hnn : nn < 256)
    (hfetch : s.fetch = some (0x7 * 4096 + b * 256 + nn))
    (hvx : s.registers[b]? = some vx)
    (hrun : s.run_instruction = some s') :
    s'.registers[b]? = some ((vx + nn) % 256) ∧
    (∀ j, j ≠ b → s'.registers[j]? = s.registers[j]?) ∧
    (b ≠ 15 → s'.registers[15]? = s.registers[15]?) ∧
    s'.program_counter = (s.program_counter + 2) % 65536 ∧
    s'.ram = s.ram ∧ s'.index_register = s.index_register ∧
    s'.stack = s.stack ∧ s'.stack_pointer = s.stack_pointer ∧
    s'.delay_timer = s.delay_timer ∧ s'.sound_timer = s.sound_timer ∧
    s'.display_buffer = s.display_buffer ∧ s'.error_log = s.error_log := by
  have hblen : b < s.registers.length := (List.getElem?_eq_some_iff.mp hvx).1
  rw [run_arm_7xnn s b nn vx hb hnn hfetch hvx] at hrun
  have hs' := Option.some.inj hrun
  subst hs'
  refine ⟨?_, ?_, ?_, rfl, rfl, rfl, rfl, rfl, rfl, rfl, rfl, rfl⟩
  · exact List.getElem?_set_self hblen
  · intro j hj
    exact List.getElem?_set_ne (Ne.symm hj)
  · intro hb15
    exact List.getElem?_set_ne hb15

/-- Witness for C7 at 7001 with V0 = 254: V0 becomes 255, the flag register
and the rest of the machine are untouched. -/
theorem c7_add_without_flag_witness :
    c7wRes.registers[0]? = some 255 ∧
    c7wRes.registers[15]? = c7w.registers[15]? ∧
    c7wRes.program_counter = 2 := by
  have h := c7_add_without_flag c7w 0 1 254 c7wRes (by norm_num) (by norm_num)
    rfl rfl (eq_some_getD _ dummyState (by decide))
  exact ⟨h.1, h.2.2.1 (by norm_num), h.2.2.2.1⟩

/-- Counterexample for C2 as stated: executing 8F04 (X = 15) with V15 = 5 and
V0 = 10 leaves V15 = 0 (the carry flag), not (5 + 10) mod 256 = 15: VX does
not hold the sum when X is 15. -/
theorem c2_sum_overwritten_counterexample :
    ((c2cex.run_instruction).map (fun t => t.registers[15]?)) = some (some 0) ∧
    (5 + 10) % 256 = 15 := by
  decide

/-- Claim C2 (amended): 8XY4 sets the flag register V15 to 1 iff the
untruncated sum VX + VY exceeds 255; the destination VX holds (VX + VY)
mod 256 when X is not 15 — when X is 15 the subsequent flag write overwrites
the destination, so V15 holds the carry flag instead of the sum. -/
theorem c2_add_with_carry (s : Chip8Emulator) (b c vx vy : Nat)
    (s' : Chip8Emulator) (hb : b < 16) (hc : c < 16)
    (hlen : s.registers.length = 16)
    (hfetch : s.fetch = some (0x8 * 4096 + b * 256 + c * 16 + 4))
    (hvx : s.registers[b]? = some vx) (hvy : s.registers[c]? = some vy)
    (hrun : s.run_instruction = some s') :
    s'.registers[15]? = some (if 255 < vx + vy then 1 else 0) ∧
    (b ≠ 15 → s'.registers[b]? = some ((vx + vy) % 256)) ∧
    (∀ j, j ≠ b → j ≠ 15 → s'.registers[j]? = s.registers[j]?) ∧
    s'.program_counter = (s.program_counter + 2) % 65536 ∧
    s'.ram = s.ram ∧ s'.index_register = s.index_register ∧
    s'.display_buffer = s.display_buffer := by
  rw [run_arm_8xy4 s b c vx vy hb hc hlen hfetch hvx hvy] at hrun
  have hs' := Option.some.inj hrun
  subst hs'
  refine ⟨?_, ?_, ?_, rfl, rfl, rfl, rfl⟩
  · exact List.getElem?_set_self (by rw [List.length_set]; omega)
  · intro hb15
    rw [List.getElem?_set_ne (fun hh => hb15 hh.symm),
      List.getElem?_set_self (by omega)]
  · intro j hjb hj15
    rw [List.getElem?_set_ne (Ne.symm hj15), List.getElem?_set_ne (Ne.symm hjb)]

/-- Witness for C2 at 8674 with V6 = 254, V7 = 2: the sum overflows, so V6
becomes 0 and the flag register becomes 1. -/
theorem c2_add_with_carry_witness :
    c2wRes.registers[15]? = some 1 ∧
    c2wRes.registers[6]? = some 0 ∧
    c2wRes.registers[7]? = c2w.registers[7]? := by
  have h := c2_add_with_carry c2w 6 7 254 2 c2wRes (by norm_num) (by norm_num)
    (by decide) rfl rfl rfl (eq_some_getD _ dummyState (by decide))
  refine ⟨h.1, ?_, h.2.2.1 7 (by norm_num) (by norm_num)⟩
  have h2 := h.2.1 (by norm_num)
  simpa using h2

/-- Claim C8: each conditional-skip opcode (3XNN, 4XNN, 5XY0, 9XY0) advances
the program counter by exactly 4 from the instruction's address when its
comparison holds and by exactly 2 when it does not, changing no other
state. -/
theorem c8_conditional_skips :
    (∀ (s : Chip8Emulator) (b nn vx : Nat), b < 16 → nn < 256 →
      s.fetch = some (0x3 * 4096 + b * 256 + nn) →
      s.registers[b]? = some vx →
      s.run_instruction = some { s with program_counter :=
        if vx = nn then (s.program_counter + 4) % 65536
        else (s.program_counter + 2) % 65536 }) ∧
    (∀ (s : Chip8Emulator) (b nn vx : Nat), b < 16 → nn < 256 →
      s.fetch = some (0x4 * 4096 + b * 256 + nn) →
      s.registers[b]? = some vx →
      s.run_instruction = some { s with program_counter :=
        if vx ≠ nn then (s.program_counter + 4) % 65536
        else (s.program_counter + 2) % 65536 }) ∧
    (∀ (s : Chip8Emulator) (b c vx vy : Nat), b < 16 → c < 16 →
      s.fetch = some (0x5 * 4096 + b * 256 + c * 16 + 0) →
      s.registers[b]? = some vx → s.registers[c]? = some vy →
      s.run_instruction = some { s with program_counter :=
        if vx = vy then (s.program_counter + 4) % 65536
        else (s.program_counter + 2) % 65536 }) ∧
    (∀ (s : Chip8Emulator) (b c vx vy : Nat), b < 16 → c < 16 →
      s.fetch = some (0x9 * 4096 + b * 256 + c * 16 + 0) →
      s.registers[b]? = some vx → s.registers[c]? = some vy →
      s.run_instruction = some { s with program_counter :=
        if vx ≠ vy then (s.program_counter + 4) % 65536
        else (s.program_counter + 2) % 65536 }) := by
  refine ⟨?_, ?_, ?_, ?_⟩
  · intro s b nn vx hb hnn hfetch hvx
    rw [run_arm_3xnn s b nn vx hb hnn hfetch hvx,
      show ((s.program_counter + 2) % 65536 + 2) % 65536 =
        (s.program_counter + 4) % 65536 from by omega]
  · intro s b nn vx hb hnn hfetch hvx
    rw [run_arm_4xnn s b nn vx hb hnn hfetch hvx,
      show ((s.program_counter + 2) % 65536 + 2) % 65536 =
        (s.program_counter + 4) % 65536 from by omega]
  · intro s b c vx vy hb hc hfetch hvx hvy
    rw [run_arm_5xy0 s b c vx vy hb hc hfetch hvx hvy,
      show ((s.program_counter + 2) % 65536 + 2) % 65536 =
        (s.program_counter + 4) % 65536 from by omega]
  · intro s b c vx vy hb hc hfetch hvx hvy
    rw [run_arm_9xy0 s b c vx vy hb hc hfetch hvx hvy,
      show ((s.program_counter + 2) % 65536 + 2) % 65536 =
        (s.program_counter + 4) % 65536 from by omega]

/-- Witness for C8 at 3105 (V1 = 5, skip), 4105 (V1 = 5, no skip),
5120 (V1 = V2 = 7, skip) and 9120 (V1 = 7, V2 = 9, skip). -/
theorem c8_conditional_skips_witness :
    c8w3.run_instruction = some { c8w3 with program_counter := 4 } ∧
    c8w4.run_instruction = some { c8w4 with program_counter := 2 } ∧
    c8w5.run_instruction = some { c8w5 with program_counter := 4 } ∧
    c8w9.run_instruction = some { c8w9 with program_counter := 4 } := by
  refine ⟨?_, ?_, ?_, ?_⟩
  · have h := c8_conditional_skips.1 c8w3 1 5 5 (by norm_num) (by norm_num) rfl rfl
    rw [h]
    rfl
  · have h := c8_conditional_skips.2.1 c8w4 1 5 5 (by norm_num) (by norm_num)
      rfl rfl
    rw [h]
    rfl
  · have h := c8_conditional_skips.2.2.1 c8w5 1 2 7 7 (by norm_num) (by norm_num)
      rfl rfl rfl
    rw [h]
    rfl
  · have h := c8_conditional_skips.2.2.2 c8w9 1 2 7 9 (by norm_num) (by norm_num)
      rfl rfl rfl
    rw [h]
    rfl

/-- Claim C9: FX65 with the index register plus X within memory sets register
i to memory[index register + i] for every i in 0..=X, leaves registers above
X unchanged, and leaves the index register (and the rest of the machine
besides the program counter) unmodified. -/
theorem c9_fx65_fill (s : Chip8Emulator) (b : Nat) (s' : Chip8Emulator)
    (hb : b < 16) (hlen : s.registers.length = 16)
    (hram : s.index_register + b < s.ram.length)
    (hfetch : s.fetch = some (0xF * 4096 + b * 256 + 0x65))
    (hrun : s.run_instruction = some s') :
    (∀ i, i ≤ b → s'.registers[i]? = s.ram[s.index_register + i]?) ∧
    (∀ j, b < j → s'.registers[j]? = s.registers[j]?) ∧
    s'.index_register = s.index_register ∧
    s'.registers.length = 16 ∧
    s'.program_counter = (s.program_counter + 2) % 65536 ∧
    s'.ram = s.ram ∧ s'.display_buffer = s.display_buffer := by
  obtain ⟨regs', hfill, hlen', hin, hout⟩ := fillRegs_spec s.ram s.index_register
    (List.range (b + 1)) s.registers (List.nodup_range (b + 1))
    (fun i hi => by
      rw [hlen]
      have := List.mem_range.mp hi
      omega)
    (fun i hi => by
      have := List.mem_range.mp hi
      omega)
  rw [run_arm_fx65 s b hb hfetch, hfill, Option.some_bind] at hrun
  have hs' := Option.some.inj hrun
  subst hs'
  refine ⟨?_, ?_, rfl, by rw [hlen', hlen], rfl, rfl, rfl⟩
  · intro i hi
    exact hin i (List.mem_range.mpr (by omega))
  · intro j hj
    exact hout j (fun hh => by
      have := List.mem_range.mp hh
      omega)

/-- Witness for C9 at F565 with the index register at 2 and six known bytes:
registers 0..5 receive 0x50..0x55, register 6 stays 0, the index register
stays 2. -/
theorem c9_fx65_fill_witness :
    c9wRes.registers[0]? = some 0x50 ∧
    c9wRes.registers[5]? = some 0x55 ∧
    c9wRes.registers[6]? = some 0 ∧
    c9wRes.index_register = 2 := by
  have h := c9_fx65_fill c9w 5 c9wRes (by norm_num) (by decide) (by decide) rfl
    (eq_some_getD _ dummyState (by decide))
  refine ⟨(h.1 0 (by norm_num)).trans (by decide),
    (h.1 5 (by norm_num)).trans (by decide),
    (h.2.1 6 (by norm_num)).trans (by decide), h.2.2.1⟩

/-- Claim C4: one successful call to run_frame decrements the delay timer by
exactly 1 when it was positive (otherwise leaves it at 0), independently does
the same for the sound timer (timers never go below 0, being naturals with
guarded decrements), and consists of exactly the configured
instructions-per-frame number of dispatch cycles run after the timer step —
no dispatch cycle ever alters the timers or the cycle budget. -/
theorem c4_frame_timers_and_cycles (s s' : Chip8Emulator)
    (hrun : s.run_60hz_frame = some s') :
    s'.delay_timer =
      (if 0 < s.delay_timer then s.delay_timer - 1 else s.delay_timer) ∧
    s'.sound_timer =
      (if 0 < s.sound_timer then s.sound_timer - 1 else s.sound_timer) ∧
    s'.instructions_per_frame = s.instructions_per_frame ∧
    runCycles s.instructions_per_frame (tickTimers s) = some s' := by
  have hcycles : runCycles s.instructions_per_frame (tickTimers s) = some s' :=
    hrun
  obtain ⟨d, t, i⟩ := runCycles_preserves_timers s.instructions_per_frame
    (tickTimers s) s' hcycles
  exact ⟨d, t, i, hcycles⟩

/-- Witness for C4: a frame from delay timer 5, sound timer 0 and one jump
cycle ends with delay timer 4 and sound timer 0 after exactly one cycle. -/
theorem c4_frame_timers_and_cycles_witness :
    c4wRes.delay_timer = 4 ∧
    c4wRes.sound_timer = 0 ∧
    c4wRes.instructions_per_frame = 1 ∧
    runCycles 1 (tickTimers c4w) = some c4wRes := by
  have h := c4_frame_timers_and_cycles c4w c4wRes
    (eq_some_getD _ dummyState (by decide))
  exact ⟨h.1, h.2.1, h.2.2.1, h.2.2.2⟩

/-- Counterexample for C1 as stated: executing D001 (height-1 draw of the
all-zero sprite byte) from a state whose flag register is 1 turns no on-cell
off, yet the flag register afterwards is 1, not 0 — DXYN leaves the flag
unchanged when no collision occurs instead of clearing it. -/
theorem c1_flag_not_cleared_counterexample :
    c1cex.registers[15]? = some 1 ∧
    c1cex.ram[c1cex.index_register + 0]? = some 0 ∧
    ((c1cex.run_instruction).map (fun t => t.registers[15]?)) = some (some 1) := by
  have hreg15 : c1cex.registers[15]? = some 1 := by
    show ((List.replicate 16 0).set 15 1)[15]? = some 1
    rw [List.getElem?_set_self (by rw [List.length_replicate]; omega)]
  obtain ⟨disp1, col1, hcells, hlen1, hin1, hout1, hcol1⟩ :=
    drawCells_spec 0 0 0 (List.range 8) (List.replicate 2048 0) false
      (List.nodup_range 8)
      (by
        intro cc hcc
        rw [List.length_replicate]
        have := List.mem_range.mp hcc
        simp only [WIDTH]
        omega)
  have hcol1f : col1 = false := by
    rw [hcol1, listAny_congr _ _ (fun _ => false)
      (by
        intro cc hcc
        simp only [Nat.zero_and, bne_self_eq_false, Bool.false_and])]
    decide
  have hdr : drawRows c1cex.ram c1cex.index_register 0 0 (List.range 1)
      (c1cex.display_buffer, false) = some (disp1, false) := by
    rw [show List.range 1 = [0] from by decide, drawRows_cons,
      show c1cex.ram[c1cex.index_register + 0]? = some 0 from rfl,
      Option.some_bind,
      show c1cex.display_buffer = List.replicate 2048 0 from rfl,
      show (0 : Nat) + 0 = 0 from rfl, hcells, Option.some_bind, drawRows_nil,
      hcol1f]
  have harm := run_arm_dxyn c1cex 0 0 1 0 0 (by norm_num) (by norm_num)
    (by norm_num) rfl rfl rfl
  refine ⟨hreg15, rfl, ?_⟩
  rw [harm, hdr, Option.some_bind]
  dsimp only
  rw [if_neg Bool.false_ne_true, Option.some_bind]
  dsimp only [Option.map_some']
  exact congrArg some hreg15

/-- Claim C1 (amended): a DXYN draw whose accessed RAM rows and display cells
are all in range XOR-draws the sprite: for each row r < height and column
c < 8, if bit (7-c) of memory[index register + r] is set, the display cell at
(VY+r)*64 + (VX+c) is toggled (an on cell becomes 0 and records a collision,
an off cell becomes the lit sentinel 0xFFFFFFFF), every other cell is
untouched; afterwards the flag register V15 equals 1 if some on-cell was
turned off during this call and is otherwise left unchanged (not reset
to 0). -/
theorem c1_draw_xor_collision (s : Chip8Emulator) (b c n vx vy : Nat)
    (s' : Chip8Emulator) (hb : b < 16) (hc : c < 16) (hn : n < 16)
    (hfetch : s.fetch = some (0xD * 4096 + b * 256 + c * 16 + n))
    (hvx : s.registers[b]? = some vx) (hvy : s.registers[c]? = some vy)
    (hreglen : s.registers.length = 16)
    (hdisp : ∀ r, r < n → (vy + r) * 64 + (vx + 7) < s.display_buffer.length)
    (hram : ∀ r, r < n → s.index_register + r < s.ram.length)
    (hrun : s.run_instruction = some s') :
    (∀ r cc byte old, r < n → cc < 8 →
      s.ram[s.index_register + r]? = some byte →
      s.display_buffer[((vy + r) * 64 + (vx + cc))]? = some old →
      s'.display_buffer[((vy + r) * 64 + (vx + cc))]? =
        some (if byte.testBit (7 - cc) then (if old ≠ 0 then 0 else 0xFFFFFFFF)
          else old)) ∧
    (∀ i, (∀ r cc, r < n → cc < 8 → i ≠ (vy + r) * 64 + (vx + cc)) →
      s'.display_buffer[i]? = s.display_buffer[i]?) ∧
    (s'.registers[15]? =
      if ∃ r, r < n ∧ ∃ cc, cc < 8 ∧
          (((s.ram[s.index_register + r]?).getD 0).testBit (7 - cc)) = true ∧
          ((s.display_buffer[((vy + r) * 64 + (vx + cc))]?).getD 0) ≠ 0
        then some 1 else s.registers[15]?) ∧
    (∀ j, j < 16 → j ≠ 15 → s'.registers[j]? = s.registers[j]?) ∧
    s'.index_register = s.index_register ∧
    s'.program_counter = (s.program_counter + 2) % 65536 ∧
    s'.ram = s.ram ∧
    s'.display_buffer.length = s.display_buffer.length := by
  have hidx : ∀ r cc, (vy + r) * 64 + (vx + cc) = (r + vy) * WIDTH + (cc + vx) := by
    intro r cc
    simp only [WIDTH]
    ring
  obtain ⟨disp', col', hdraw, hlen', hin', hout', hcol'⟩ :=
    drawRows_spec s.ram s.index_register vx vy (List.range n) s.display_buffer
      false (List.nodup_range n)
      (fun r hr => by
        have h1 := hdisp r (List.mem_range.mp hr)
        simp only [WIDTH]
        omega)
      (fun r hr => hram r (List.mem_range.mp hr))
  rw [run_arm_dxyn s b c n vx vy hb hc hn hfetch hvx hvy, hdraw,
    Option.some_bind] at hrun
  rw [Bool.false_or] at hcol'
  have hcolex : col' = true ↔ (∃ r, r < n ∧ ∃ cc, cc < 8 ∧
      (((s.ram[s.index_register + r]?).getD 0).testBit (7 - cc)) = true ∧
      ((s.display_buffer[((vy + r) * 64 + (vx + cc))]?).getD 0) ≠ 0) := by
    rw [hcol']
    simp only [List.any_eq_true, List.mem_range, Bool.and_eq_true, bne_iff_ne]
    constructor
    · rintro ⟨r, hr, cc, hcc, hbit, hold⟩
      exact ⟨r, hr, cc, hcc, (sprite_bit_ne_iff _ cc hcc).mp hbit,
        by rw [hidx r cc]; exact hold⟩
    · rintro ⟨r, hr, cc, hcc, hbit, hold⟩
      exact ⟨r, hr, cc, hcc, (sprite_bit_ne_iff _ cc hcc).mpr hbit,
        by rw [← hidx r cc]; exact hold⟩
  by_cases hcol : col' = true
  · rw [hcol, if_pos rfl, listSet, if_pos (by omega), Option.some_bind] at hrun
    have hs' := Option.some.inj hrun
    subst hs'
    refine ⟨?_, ?_, ?_, ?_, rfl, rfl, rfl, hlen'⟩
    · intro r cc byte old hr hcc hbyte hold
      have h := hin' r (List.mem_range.mpr hr) cc hcc byte old hbyte
        (by rw [← hidx r cc]; exact hold)
      rw [hidx r cc, h, sprite_bit_eq_testBit byte cc hcc]
    · intro i hi
      exact hout' i (fun r hr cc hcc =>
        (hidx r cc) ▸ hi r cc (List.mem_range.mp hr) hcc)
    · rw [if_pos (hcolex.mp hcol)]
      exact List.getElem?_set_self (by omega)
    · intro j hj hj15
      exact List.getElem?_set_ne (Ne.symm hj15)
  · rw [if_neg hcol, Option.some_bind] at hrun
    have hs' := Option.some.inj hrun
    subst hs'
    refine ⟨?_, ?_, ?_, fun j _ _ => rfl, rfl, rfl, rfl, hlen'⟩
    · intro r cc byte old hr hcc hbyte hold
      have h := hin' r (List.mem_range.mpr hr) cc hcc byte old hbyte
        (by rw [← hidx r cc]; exact hold)
      rw [hidx r cc, h, sprite_bit_eq_testBit byte cc hcc]
    · intro i hi
      exact hout' i (fun r hr cc hcc =>
        (hidx r cc) ▸ hi r cc (List.mem_range.mp hr) hcc)
    · rw [if_neg (fun hex => hcol (hcolex.mpr hex))]

set_option maxRecDepth 8000 in
/-- Witness for C1 at D012: drawing rows 0xFF and 0xAA at origin (1, 2) on a
cleared display lights cell (2,1), leaves cell (3,2) dark (bit 6 of 0xAA is
clear), leaves an untouched cell dark, and leaves the flag register at 0. -/
theorem c1_draw_xor_collision_witness :
    c1wRes.display_buffer[2 * 64 + 1]? = some 0xFFFFFFFF ∧
    c1wRes.display_buffer[3 * 64 + 2]? = some 0 ∧
    c1wRes.display_buffer[4 * 64 + 1]? = some 0 ∧
    c1wRes.registers[15]? = c1w.registers[15]? := by
  have h := c1_draw_xor_collision c1w 0 1 2 1 2 c1wRes (by norm_num)
    (by norm_num) (by norm_num) rfl rfl rfl (by decide)
    (by intro r hr; rw [show c1w.display_buffer = List.replicate 384 0 from rfl,
      List.length_replicate]; omega)
    (by
      intro r hr
      rw [show c1w.index_register = 2 from rfl, show c1w.ram.length = 4 from rfl]
      omega)
    (eq_some_getD _ dummyState (by decide))
  refine ⟨?_, ?_, ?_, ?_⟩
  · have hcell := h.1 0 0 0xFF 0 (by norm_num) (by norm_num) (by decide) (by decide)
    exact hcell.trans (by decide)
  · have hcell := h.1 1 1 0xAA 0 (by norm_num) (by norm_num) (by decide) (by decide)
    exact hcell.trans (by decide)
  · have huntouched := h.2.1 (4 * 64 + 1) (by intro r cc hr hcc; omega)
    exact huntouched.trans (by decide)
  · have hflag := h.2.2.1
    rw [if_neg (by decide)] at hflag
    exact hflag

end IronChip
